import Mathlib

/-!
Verification development for the InnovateBooks Revenue/Procurement Workflow
Engine (Lead → Evaluate → Commit → Contract → Handoff).

The repository snapshot contains the integration test suite and helper
scripts but not the backend route-handler sources themselves, so the
workflow engine is modelled from the specification (spec.md §3–§7) as an
executable shallow embedding: documents are Lean structures, the document
store is a record of lists, and each HTTP operation is a pure function
from state to (result, state).
-/

namespace InnovateBooks

/-- Modelled from the spec: §4.2 — an entry of the approver list returned by
the Approval Matrix, a role together with a human-readable reason. -/
structure Approver where
  role : String
  reason : String
deriving DecidableEq, Repr

/-- Modelled from the spec: §4.2 Approval Matrix (route-handler source absent
from the snapshot). Pure table-driven thresholds: amount ≤ ₹50,00,000 ⇒ no
approval; ₹50,00,000 < amount ≤ ₹1,00,00,000 ⇒ Finance Head;
amount > ₹1,00,00,000 ⇒ Finance Head then CFO. Comparisons are inclusive on
the lower tier (exclusive entry into the next). The domain argument is
carried from the contract `required_approvers(amount, domain)`; the
threshold table does not vary with it. -/
def required_approvers (amount : Nat) (_domain : String) : List Approver :=
  if amount ≤ 5000000 then
    []
  else if amount ≤ 10000000 then
    [⟨"Finance Head", "Deal value above ₹50L"⟩]
  else
    [⟨"Finance Head", "Deal value above ₹50L"⟩, ⟨"CFO", "Deal value above ₹1Cr"⟩]

/-- Role names of the required approvers, in order. -/
def approverRoles (amount : Nat) (domain : String) : List String :=
  (required_approvers amount domain).map Approver.role

/-- Modelled from the spec: §3 — identity is a human-readable prefixed id
such as `LEAD-<timestamp>` or `REV-EVAL-...`; embedded as the prefix tag
together with the numeric part (the timestamp-derived generator is
abstracted as a per-store counter, see §9 on collision risk). -/
structure DocId where
  tag : String
  num : Nat
deriving DecidableEq, Repr

/-- Human-readable rendering of a document id, used inside task titles. -/
def DocId.render (i : DocId) : String := i.tag ++ "-" ++ toString i.num

/-- Modelled from the spec: §3 Lead — a prospective deal with company and
contact info, `lead_source`, `estimated_deal_value`, `stage`, and the
`is_converted` flag; scoped by `org_id`. -/
structure Lead where
  lead_id : DocId
  org_id : String
  company_name : String
  country : String
  contact_name : String
  contact_email : String
  lead_source : String
  estimated_deal_value : Nat
  stage : String
  is_converted : Bool
deriving DecidableEq, Repr

/-- Modelled from the spec: §4.1 — the request-body fields of lead capture
used by the Workflow Orchestrator and the Party Resolver. -/
structure LeadInput where
  company_name : String
  country : String
  contact_name : String
  contact_email : String
  lead_source : String
  estimated_deal_value : Nat
deriving DecidableEq, Repr

/-- Modelled from the spec: §3 Party — the canonical counterparty record the
Party Resolver finds-or-creates, keyed by normalized name and country. -/
structure Party where
  party_id : DocId
  org_id : String
  name : String
  country : String
  contact_name : String
  contact_email : String
  status : String
deriving DecidableEq, Repr

/-- Modelled from the spec: §3 Evaluation — created from a qualified Lead,
linked to the resolved `party_id`; carries the deal-value snapshot the
Approval Matrix is applied to at submit time. -/
structure Evaluation where
  evaluation_id : DocId
  org_id : String
  source_lead_id : DocId
  party_id : DocId
  deal_value : Nat
deriving DecidableEq, Repr

/-- Modelled from the spec: §3 Commit — holds the required `approvers`, the
recorded approval roles, `status` ∈ {pending_approval, approved}, and the
id of the contract issued from it, if any. -/
structure Commit where
  commit_id : DocId
  org_id : String
  evaluation_id : DocId
  deal_value : Nat
  approvers : List Approver
  approvals : List String
  status : String
  contract_id : Option DocId
deriving DecidableEq, Repr

/-- Modelled from the spec: §3 Contract — created from an approved Commit,
`status` ∈ {draft, signed}. -/
structure Contract where
  contract_id : DocId
  org_id : String
  commit_id : DocId
  status : String
deriving DecidableEq, Repr

/-- Modelled from the spec: §3 Handoff — operational kickoff record produced
at contract signature. -/
structure Handoff where
  handoff_id : DocId
  org_id : String
  source_contract_id : DocId
  source_type : String
deriving DecidableEq, Repr

/-- Modelled from the spec: §3 WorkOrder — downstream operations record
carrying `source_contract_id` and `source_type`; per the known defect it may
be created with a null tenant identifier, so `org_id` is optional here. -/
structure WorkOrder where
  work_order_id : DocId
  org_id : Option String
  source_contract_id : DocId
  source_type : String
deriving DecidableEq, Repr

/-- Modelled from the spec: §3 WorkspaceTask — companion record created as a
side effect, referencing the originating entity via `context_id`. -/
structure WorkspaceTask where
  task_id : DocId
  org_id : String
  title : String
  status : String
  source : String
  context_id : DocId
deriving DecidableEq, Repr

/-- Modelled from the spec: §4.4 — the workspace Approval companion record
created per required approver role, referencing the commit via
`context_id`. -/
structure ApprovalRec where
  approval_id : DocId
  org_id : String
  title : String
  decision : String
  context_id : DocId
  role : String
deriving DecidableEq, Repr

/-- Modelled from the spec: §3 ActivityEntry — activity-feed companion
record referencing the originating entity by `entity_id`. -/
structure ActivityEntry where
  activity_id : DocId
  org_id : String
  action : String
  entity_type : String
  entity_id : DocId
  module_name : String
deriving DecidableEq, Repr

/-- Modelled from the spec: §3 Signal — intelligence signal emitted on
revenue handoff by the Side-Effect Emitter. -/
structure Signal where
  signal_id : DocId
  org_id : String
  source : String
  entity_id : DocId
deriving DecidableEq, Repr

/-- Modelled from the spec: §3/§9 — the document store of the workflow core,
one list per collection. The two signal collections are kept separate
because, per the observed defect, the workflow writer uses the collection
`intelligence_signals` while the Intelligence Signals API reads
`intel_signals`. `next_id` abstracts the timestamp-derived id generator as
a counter. -/
structure WFState where
  leads : List Lead
  parties : List Party
  evaluations : List Evaluation
  commits : List Commit
  contracts : List Contract
  handoffs : List Handoff
  work_orders : List WorkOrder
  tasks : List WorkspaceTask
  wapprovals : List ApprovalRec
  activities : List ActivityEntry
  intelligence_signals : List Signal
  intel_signals : List Signal
  next_id : Nat
deriving DecidableEq, Repr

/-- Empty document store. -/
def initState : WFState :=
  ⟨[], [], [], [], [], [], [], [], [], [], [], [], 0⟩

/-- Modelled from the spec: §7 — a guard rejection or not-found outcome, a
plain HTTP status with a human-readable `detail` string. -/
structure ErrResp where
  status : Nat
  detail : String
deriving DecidableEq, Repr

/-- ASCII lowercasing of one character (kernel-computable). -/
def lowerChar (c : Char) : Char :=
  if 65 ≤ c.toNat ∧ c.toNat ≤ 90 then Char.ofNat (c.toNat + 32) else c

/-- Modelled from the spec: §4.1 — name normalization used by the Party
Resolver lookup key (normalized legal/display name): lowercase the name. -/
def normalizeName (s : String) : String := ⟨s.data.map lowerChar⟩

def findLead (org : String) (lid : DocId) (s : WFState) : Option Lead :=
  s.leads.find? (fun l => l.org_id == org && l.lead_id == lid)

def findEvaluation (org : String) (eid : DocId) (s : WFState) :
    Option Evaluation :=
  s.evaluations.find? (fun e => e.org_id == org && e.evaluation_id == eid)

def findCommit (org : String) (cid : DocId) (s : WFState) : Option Commit :=
  s.commits.find? (fun c => c.org_id == org && c.commit_id == cid)

def findContract (org : String) (cid : DocId) (s : WFState) :
    Option Contract :=
  s.contracts.find? (fun c => c.org_id == org && c.contract_id == cid)

/-- Modelled from the spec: §4.4/§6 — POST `/revenue/leads`. Creates the
lead with `stage = "new"` and `is_converted = false` regardless of the
request body, plus the two companion records: a WorkspaceTask
"Initial Contact: company" (`status=open`, `source=system`,
`context_id` = new lead id) and an ActivityEntry with `action=created`. -/
def createLead (org : String) (inp : LeadInput) (s : WFState) :
    DocId × WFState :=
  let n := s.next_id
  let lid : DocId := ⟨"LEAD", n⟩
  let lead : Lead :=
    { lead_id := lid, org_id := org, company_name := inp.company_name,
      country := inp.country, contact_name := inp.contact_name,
      contact_email := inp.contact_email, lead_source := inp.lead_source,
      estimated_deal_value := inp.estimated_deal_value,
      stage := "new", is_converted := false }
  let task : WorkspaceTask :=
    { task_id := ⟨"TASK", n⟩, org_id := org,
      title := "Initial Contact: " ++ inp.company_name,
      status := "open", source := "system", context_id := lid }
  let act : ActivityEntry :=
    { activity_id := ⟨"ACT", n⟩, org_id := org,
      action := "created", entity_type := "lead", entity_id := lid,
      module_name := "commerce" }
  (lid, { s with leads := lead :: s.leads, tasks := task :: s.tasks,
                 activities := act :: s.activities, next_id := n + 1 })

/-- Modelled from the spec: §4.3/§6 — PUT `/revenue/leads/{id}/stage`. The
Stage Transition Guard admits only the legal forward path
new → contacted → qualified; any other requested change is rejected with a
400 and no mutation. The store mutation of a granted stage change is split
out as `stageApply` (the by-id document update). -/
def stageApply (org : String) (lid : DocId) (new_stage : String)
    (s : WFState) : WFState :=
  { s with leads := s.leads.map (fun x =>
      if x.org_id == org && x.lead_id == lid then
        { x with stage := new_stage } else x) }

def changeLeadStage (org : String) (lid : DocId) (new_stage : String)
    (s : WFState) : Except ErrResp Unit × WFState :=
  match findLead org lid s with
  | none => (Except.error ⟨404, "Lead not found"⟩, s)
  | some l =>
    if (l.stage = "new" ∧ new_stage = "contacted") ∨
        (l.stage = "contacted" ∧ new_stage = "qualified") then
      (Except.ok (), stageApply org lid new_stage s)
    else
      (Except.error ⟨400, "Illegal stage transition"⟩, s)

/-- Modelled from the spec: §4.1 Party Resolver —
`resolve_or_create_party(identity_fields) -> party_id`. Looks up an
existing party of the tenant by normalized name + country; if absent,
creates one with a generated id and default unverified status. -/
def resolveOrCreateParty (org : String) (l : Lead) (s : WFState) :
    DocId × WFState :=
  match s.parties.find? (fun p => p.org_id == org &&
      p.name == normalizeName l.company_name && p.country == l.country) with
  | some p => (p.party_id, s)
  | none =>
    let pid : DocId := ⟨"PARTY", s.next_id⟩
    let p : Party :=
      { party_id := pid, org_id := org, name := normalizeName l.company_name,
        country := l.country, contact_name := l.contact_name,
        contact_email := l.contact_email, status := "unverified" }
    (pid, { s with parties := p :: s.parties, next_id := s.next_id + 1 })

/-- Successful payload of `convert-to-evaluate`. -/
structure ConvertOk where
  evaluation_id : DocId
  party_id : DocId
deriving DecidableEq, Repr

/-- Modelled from the spec: §4.3/§6 — POST
`/revenue/leads/{id}/convert-to-evaluate`. Guard: the lead must exist, be
in stage "qualified" and not already converted; rejection is a 400 with
reason and performs no mutation. On success the Party Resolver runs, an
Evaluation linked to the party is created, and the lead is marked
`is_converted = true` with `stage = "converted"`. The granted-path store
mutation is split out as `convertApply`. -/
def convertApply (org : String) (lid : DocId) (l : Lead) (s : WFState) :
    ConvertOk × WFState :=
  let pr := resolveOrCreateParty org l s
  let s1 := pr.2
  let eid : DocId := ⟨"REV-EVAL", s1.next_id⟩
  let ev : Evaluation :=
    { evaluation_id := eid, org_id := org, source_lead_id := lid,
      party_id := pr.1, deal_value := l.estimated_deal_value }
  (⟨eid, pr.1⟩,
   { s1 with
     evaluations := ev :: s1.evaluations,
     leads := s1.leads.map (fun x =>
       if x.org_id == org && x.lead_id == lid then
         { x with is_converted := true, stage := "converted" } else x),
     next_id := s1.next_id + 1 })

def convertToEvaluate (org : String) (lid : DocId) (s : WFState) :
    Except ErrResp ConvertOk × WFState :=
  match findLead org lid s with
  | none => (Except.error ⟨404, "Lead not found"⟩, s)
  | some l =>
    if l.stage ≠ "qualified" then
      (Except.error ⟨400, "Lead is not qualified"⟩, s)
    else if l.is_converted then
      (Except.error ⟨400, "Lead already converted"⟩, s)
    else
      (Except.ok (convertApply org lid l s).1, (convertApply org lid l s).2)

/-- Successful payload of evaluation submit. -/
structure SubmitOk where
  commit_id : DocId
  requires_approval : Bool
  approvers : List Approver
deriving DecidableEq, Repr

/-- Modelled from the spec: §4.4/§6 — POST `/revenue/evaluations/{id}/submit`.
Creates a Commit whose `approvers` come from the Approval Matrix applied to
the deal value; an empty approver list auto-approves, otherwise
`status = pending_approval`; one workspace Approval record is created per
required role, referencing the commit. The store mutation is split out as
`submitApply`. -/
def submitApply (org : String) (eid : DocId) (ev : Evaluation)
    (s : WFState) : SubmitOk × WFState :=
  let n := s.next_id
  let approvers := required_approvers ev.deal_value "revenue"
  let cid : DocId := ⟨"REV-CMT", n⟩
  let c : Commit :=
    { commit_id := cid, org_id := org, evaluation_id := eid,
      deal_value := ev.deal_value, approvers := approvers, approvals := [],
      status := if approvers.isEmpty then "approved" else "pending_approval",
      contract_id := none }
  let recs := approvers.map (fun a =>
    ({ approval_id := ⟨"APR-" ++ a.role, n⟩, org_id := org,
       title := "Approve Commit: " ++ cid.render, decision := "pending",
       context_id := cid, role := a.role } : ApprovalRec))
  (⟨cid, !approvers.isEmpty, approvers⟩,
   { s with commits := c :: s.commits, wapprovals := recs ++ s.wapprovals,
            next_id := n + 1 })

def submitEvaluation (org : String) (eid : DocId) (s : WFState) :
    Except ErrResp SubmitOk × WFState :=
  match findEvaluation org eid s with
  | none => (Except.error ⟨404, "Evaluation not found"⟩, s)
  | some ev =>
    (Except.ok (submitApply org eid ev s).1, (submitApply org eid ev s).2)

/-- Successful payload of the approve-commit operation. -/
structure ApproveOk where
  all_approved : Bool
deriving DecidableEq, Repr

/-- Tells whether every required approver role of a commit has a recorded
approval entry. -/
def allRolesApproved (c : Commit) : Bool :=
  c.approvers.all (fun a => c.approvals.contains a.role)

/-- Modelled from the spec: §4.5 — POST `/revenue/commits/{id}/approve`.
Records the approval for the given role, recomputes whether every required
role has approved, flips `status` to approved only when complete, and
returns `all_approved` accordingly. The store mutation is split out as
`approveApply`. -/
def approveUpdate (c : Commit) (role : String) : Commit :=
  let c1 := { c with approvals := role :: c.approvals }
  { c1 with status := if allRolesApproved c1 then "approved" else c.status }

def approveApply (org : String) (cid : DocId) (role : String) (c : Commit)
    (s : WFState) : ApproveOk × WFState :=
  (⟨allRolesApproved { c with approvals := role :: c.approvals }⟩,
   { s with commits := s.commits.map (fun x =>
       if x.org_id == org && x.commit_id == cid then
         approveUpdate c role else x) })

def approveCommit (org : String) (cid : DocId) (role : String)
    (s : WFState) : Except ErrResp ApproveOk × WFState :=
  match findCommit org cid s with
  | none => (Except.error ⟨404, "Commit not found"⟩, s)
  | some c =>
    (Except.ok (approveApply org cid role c s).1,
     (approveApply org cid role c s).2)

/-- Modelled from the spec: §4.3/§4.4/§6 — POST
`/revenue/commits/{id}/create-contract`. Guard: the commit must be
approved and not already have a contract. Creates a draft contract, stamps
`commit.contract_id`, and emits a "Review Contract" WorkspaceTask
referencing the contract. The store mutation is split out as
`contractApply`. -/
def contractApply (org : String) (cid : DocId) (s : WFState) :
    DocId × WFState :=
  let n := s.next_id
  let ctid : DocId := ⟨"REV-CON", n⟩
  let ct : Contract :=
    { contract_id := ctid, org_id := org, commit_id := cid,
      status := "draft" }
  let task : WorkspaceTask :=
    { task_id := ⟨"TASK", n⟩, org_id := org,
      title := "Review Contract: " ++ ctid.render, status := "open",
      source := "system", context_id := ctid }
  (ctid,
   { s with contracts := ct :: s.contracts, tasks := task :: s.tasks,
            commits := s.commits.map (fun x =>
              if x.org_id == org && x.commit_id == cid then
                { x with contract_id := some ctid } else x),
            next_id := n + 1 })

def createContract (org : String) (cid : DocId) (s : WFState) :
    Except ErrResp DocId × WFState :=
  match findCommit org cid s with
  | none => (Except.error ⟨404, "Commit not found"⟩, s)
  | some c =>
    if c.status ≠ "approved" then
      (Except.error ⟨400, "Commit is not approved"⟩, s)
    else if c.contract_id.isSome then
      (Except.error ⟨400, "Contract already exists for this commit"⟩, s)
    else
      (Except.ok (contractApply org cid s).1, (contractApply org cid s).2)

/-- Modelled from the spec: §6 — POST `/revenue/contracts/{id}/sign`. Marks
the contract signed. -/
def signApply (org : String) (ctid : DocId) (s : WFState) : WFState :=
  { s with contracts := s.contracts.map (fun x =>
      if x.org_id == org && x.contract_id == ctid then
        { x with status := "signed" } else x) }

def signContract (org : String) (ctid : DocId) (s : WFState) :
    Except ErrResp Unit × WFState :=
  match findContract org ctid s with
  | none => (Except.error ⟨404, "Contract not found"⟩, s)
  | some _ => (Except.ok (), signApply org ctid s)

/-- Successful payload of the handoff operation. -/
structure HandoffOk where
  handoff_id : DocId
  work_order_id : DocId
deriving DecidableEq, Repr

/-- Modelled from the spec: §4.3/§4.4/§6 and the §9 defect notes — POST
`/revenue/contracts/{id}/handoff`. Guard: the contract must be signed.
Creates the Handoff, a "Start Delivery" WorkspaceTask referencing the
handoff, a WorkOrder carrying `source_contract_id` — written, per the
observed defect, with a null `org_id` — and an intelligence Signal written,
per the observed defect, to the `intelligence_signals` collection rather
than the `intel_signals` collection the Intelligence API reads. -/
def handoffApply (org : String) (ctid : DocId) (s : WFState) :
    HandoffOk × WFState :=
  let n := s.next_id
  let hid : DocId := ⟨"REV-HO", n⟩
  let woid : DocId := ⟨"WO", n⟩
  let ho : Handoff :=
    { handoff_id := hid, org_id := org, source_contract_id := ctid,
      source_type := "revenue" }
  let task : WorkspaceTask :=
    { task_id := ⟨"TASK", n⟩, org_id := org,
      title := "Start Delivery: " ++ ctid.render, status := "open",
      source := "system", context_id := hid }
  let wo : WorkOrder :=
    { work_order_id := woid, org_id := none,
      source_contract_id := ctid, source_type := "revenue" }
  let sig : Signal :=
    { signal_id := ⟨"SIG", n⟩, org_id := org,
      source := "workflow_engine", entity_id := ctid }
  (⟨hid, woid⟩,
   { s with handoffs := ho :: s.handoffs, tasks := task :: s.tasks,
            work_orders := wo :: s.work_orders,
            intelligence_signals := sig :: s.intelligence_signals,
            next_id := n + 1 })

def handoffContract (org : String) (ctid : DocId) (s : WFState) :
    Except ErrResp HandoffOk × WFState :=
  match findContract org ctid s with
  | none => (Except.error ⟨404, "Contract not found"⟩, s)
  | some c =>
    if c.status ≠ "signed" then
      (Except.error ⟨400, "Contract must be signed before handoff"⟩, s)
    else
      (Except.ok (handoffApply org ctid s).1, (handoffApply org ctid s).2)

/-- Modelled from the spec: §6 — GET `/api/intelligence/signals`, the
tenant-scoped reader of the consuming module; per the observed defect it
queries the `intel_signals` collection. -/
def intelligenceSignalsApi (org : String) (s : WFState) : List Signal :=
  s.intel_signals.filter (fun x => x.org_id == org)

/-- Modelled from the spec: §6 — GET `/api/operations/work-intake`, the
tenant-scoped reader of the consuming module; it filters work orders by the
caller tenant id. -/
def operationsWorkIntakeApi (org : String) (s : WFState) : List WorkOrder :=
  s.work_orders.filter (fun x => x.org_id == some org)

/-- Modelled from the spec: §6 — GET `/revenue/leads`, tenant-scoped list. -/
def listLeads (org : String) (s : WFState) : List Lead :=
  s.leads.filter (fun x => x.org_id == org)

/-- Modelled from the spec: §6 — GET `/api/workspace/tasks`, tenant-scoped
list. -/
def workspaceTasksApi (org : String) (s : WFState) : List WorkspaceTask :=
  s.tasks.filter (fun x => x.org_id == org)

/-- Modelled from the spec: §6 — GET `/api/activity/feed`, tenant-scoped
list. -/
def activityFeedApi (org : String) (s : WFState) : List ActivityEntry :=
  s.activities.filter (fun x => x.org_id == org)

/-- One workflow operation of the orchestrator, invoked by some tenant with
some arguments, taking the store from `s` to the returned post-state
(guard-rejected calls return the store unchanged). -/
inductive Step : WFState → WFState → Prop
  | createLead (org : String) (inp : LeadInput) (s : WFState) :
      Step s (createLead org inp s).2
  | changeLeadStage (org : String) (lid : DocId) (st : String) (s : WFState) :
      Step s (changeLeadStage org lid st s).2
  | convertToEvaluate (org : String) (lid : DocId) (s : WFState) :
      Step s (convertToEvaluate org lid s).2
  | submitEvaluation (org : String) (eid : DocId) (s : WFState) :
      Step s (submitEvaluation org eid s).2
  | approveCommit (org : String) (cid : DocId) (role : String) (s : WFState) :
      Step s (approveCommit org cid role s).2
  | createContract (org : String) (cid : DocId) (s : WFState) :
      Step s (createContract org cid s).2
  | signContract (org : String) (ctid : DocId) (s : WFState) :
      Step s (signContract org ctid s).2
  | handoffContract (org : String) (ctid : DocId) (s : WFState) :
      Step s (handoffContract org ctid s).2

/-- States reachable from the empty store by any sequence of workflow
operations. -/
inductive Reachable : WFState → Prop
  | init : Reachable initState
  | step {s s' : WFState} : Reachable s → Step s s' → Reachable s'

/-- Invariant of §8: a commit is `approved` exactly when every required
approver role has a recorded approval entry. -/
def CommitInv (s : WFState) : Prop :=
  ∀ c ∈ s.commits, (c.status = "approved" ↔ allRolesApproved c = true)

/-- Id discipline of the lead store: every lead id was minted by the
counter, and no two leads share an id. -/
def LeadIds (s : WFState) : Prop :=
  (∀ l ∈ s.leads, l.lead_id.num < s.next_id) ∧
  s.leads.Pairwise (fun a b => a.lead_id ≠ b.lead_id)

/-- Invariant of §8 (amended to the Party Resolver reuse key): a converted
lead is in stage `converted` and a party of the same tenant matching its
normalized company name and country exists. -/
def LeadConv (s : WFState) : Prop :=
  ∀ l ∈ s.leads, l.is_converted = true →
    l.stage = "converted" ∧ ∃ p ∈ s.parties, p.org_id = l.org_id ∧
      p.name = normalizeName l.company_name ∧ p.country = l.country

/-- Concrete demo tenant for the executable scenarios, standing in for the
organization of the seeded demo user. -/
def demoOrg : String := "ORG-DEMO"

/-- Concrete ₹60L lead request body (end-to-end scenario 3 of §8). -/
def acmeInput : LeadInput :=
  { company_name := "Acme Pvt Ltd", country := "India",
    contact_name := "Asha", contact_email := "asha@acme.in",
    lead_source := "referral", estimated_deal_value := 6000000 }

/-- Second concrete lead of the same counterparty: the company name differs
only in letter case (so it normalizes to the same party key) while the
contact fields differ. -/
def acmeInput2 : LeadInput :=
  { company_name := "ACME PVT LTD", country := "India",
    contact_name := "Vikram", contact_email := "vikram@other.in",
    lead_source := "website", estimated_deal_value := 3000000 }

def leadId0 : DocId := ⟨"LEAD", 0⟩

def evalId2 : DocId := ⟨"REV-EVAL", 2⟩

def cmtId3 : DocId := ⟨"REV-CMT", 3⟩

def conId4 : DocId := ⟨"REV-CON", 4⟩

def leadId6 : DocId := ⟨"LEAD", 6⟩

/-- Scenario: the demo tenant creates the ₹60L lead. -/
def sA : WFState := (createLead demoOrg acmeInput initState).2

/-- Scenario: the lead is moved to contacted. -/
def sB : WFState := (changeLeadStage demoOrg leadId0 "contacted" sA).2

/-- Scenario: the lead is moved to qualified. -/
def sC : WFState := (changeLeadStage demoOrg leadId0 "qualified" sB).2

/-- Scenario: the qualified lead is converted to an evaluation. -/
def sD : WFState := (convertToEvaluate demoOrg leadId0 sC).2

/-- Scenario: the evaluation is submitted, creating a pending commit. -/
def sE : WFState := (submitEvaluation demoOrg evalId2 sD).2

/-- Scenario: the Finance Head approves the commit. -/
def sF : WFState := (approveCommit demoOrg cmtId3 "Finance Head" sE).2

/-- Scenario: a contract is created from the approved commit. -/
def sG : WFState := (createContract demoOrg cmtId3 sF).2

/-- Scenario: the contract is signed. -/
def sH : WFState := (signContract demoOrg conId4 sG).2

/-- Scenario: the signed contract is handed off to operations. -/
def sI : WFState := (handoffContract demoOrg conId4 sH).2

/-- Scenario: the second Acme lead is created. -/
def sJ : WFState := (createLead demoOrg acmeInput2 sI).2

/-- Scenario: the second lead is moved to contacted. -/
def sJ2 : WFState := (changeLeadStage demoOrg leadId6 "contacted" sJ).2

/-- Scenario: the second lead is moved to qualified. -/
def sJ3 : WFState := (changeLeadStage demoOrg leadId6 "qualified" sJ2).2

/-- Scenario: the second lead is converted; the Party Resolver reuses the
existing Acme party. -/
def sK : WFState := (convertToEvaluate demoOrg leadId6 sJ3).2

/-- The freshly created Acme lead as stored in `sA`. -/
def leadA : Lead :=
  { lead_id := ⟨"LEAD", 0⟩, org_id := "ORG-DEMO",
    company_name := "Acme Pvt Ltd", country := "India",
    contact_name := "Asha", contact_email := "asha@acme.in",
    lead_source := "referral", estimated_deal_value := 6000000,
    stage := "new", is_converted := false }

/-- The pending commit as stored in `sE`. -/
def cmtE : Commit :=
  { commit_id := ⟨"REV-CMT", 3⟩, org_id := "ORG-DEMO",
    evaluation_id := ⟨"REV-EVAL", 2⟩, deal_value := 6000000,
    approvers := [⟨"Finance Head", "Deal value above ₹50L"⟩],
    approvals := [], status := "pending_approval", contract_id := none }

/-- The signed contract as stored in `sH`. -/
def contractH : Contract :=
  { contract_id := ⟨"REV-CON", 4⟩, org_id := "ORG-DEMO",
    commit_id := ⟨"REV-CMT", 3⟩, status := "signed" }

/-- The second, converted Acme lead as stored in `sK`. -/
def lead6 : Lead :=
  { lead_id := ⟨"LEAD", 6⟩, org_id := "ORG-DEMO",
    company_name := "ACME PVT LTD", country := "India",
    contact_name := "Vikram", contact_email := "vikram@other.in",
    lead_source := "website", estimated_deal_value := 3000000,
    stage := "converted", is_converted := true }

end InnovateBooks

namespace InnovateBooks

/-! Generic list helpers. -/

lemma find?_map_replace {α : Type} (p : α → Bool) (d : α) (l : List α)
    (c : α) (hfind : l.find? p = some c) (hd : p d = true) :
    (l.map fun x => if p x then d else x).find? p = some d := by
  induction l with
  | nil => simp at hfind
  | cons a as ih =>
    rw [List.map_cons]
    by_cases ha : p a
    · rw [if_pos ha]
      simp [List.find?_cons_of_pos _ hd]
    · rw [if_neg ha]
      rw [List.find?_cons_of_neg _ ha] at hfind
      rw [List.find?_cons_of_neg _ ha]
      exact ih hfind

lemma pairwise_ne_unique {α : Type} (key : α → DocId) {l : List α} {x y : α}
    (hpw : l.Pairwise (fun a b => key a ≠ key b)) (hx : x ∈ l) (hy : y ∈ l)
    (hkey : key x = key y) : x = y := by
  by_contra hne
  have hsymm : Symmetric (fun a b : α => key a ≠ key b) :=
    fun a b h e => h (e.symm)
  exact (hpw.forall hsymm hx hy hne) hkey

/-! Case-analysis lemmas: each guarded operation either rejects and returns
the store unchanged, or passes its guard and returns the corresponding
apply-function state. -/

lemma changeLeadStage_state (org : String) (lid : DocId) (st : String)
    (s : WFState) :
    (changeLeadStage org lid st s).2 = s ∨
    ∃ l, findLead org lid s = some l ∧
      ((l.stage = "new" ∧ st = "contacted") ∨
        (l.stage = "contacted" ∧ st = "qualified")) ∧
      (changeLeadStage org lid st s).2 = stageApply org lid st s := by
  cases h : findLead org lid s with
  | none => left; simp [changeLeadStage, h]
  | some l =>
    by_cases hc : (l.stage = "new" ∧ st = "contacted") ∨
        (l.stage = "contacted" ∧ st = "qualified")
    · right; exact ⟨l, rfl, hc, by simp [changeLeadStage, h, hc]⟩
    · left; simp [changeLeadStage, h, hc]

lemma convertToEvaluate_state (org : String) (lid : DocId) (s : WFState) :
    (convertToEvaluate org lid s).2 = s ∨
    ∃ l, findLead org lid s = some l ∧ l.stage = "qualified" ∧
      l.is_converted = false ∧
      (convertToEvaluate org lid s).2 = (convertApply org lid l s).2 := by
  cases h : findLead org lid s with
  | none => left; simp [convertToEvaluate, h]
  | some l =>
    by_cases hq : l.stage = "qualified"
    · cases hcv : l.is_converted with
      | true => left; simp [convertToEvaluate, h, hq, hcv]
      | false =>
        right
        exact ⟨l, rfl, hq, hcv, by simp [convertToEvaluate, h, hq, hcv]⟩
    · left; simp [convertToEvaluate, h, hq]

lemma submitEvaluation_state (org : String) (eid : DocId) (s : WFState) :
    (submitEvaluation org eid s).2 = s ∨
    ∃ ev, findEvaluation org eid s = some ev ∧
      (submitEvaluation org eid s).2 = (submitApply org eid ev s).2 := by
  cases h : findEvaluation org eid s with
  | none => left; simp [submitEvaluation, h]
  | some ev => right; exact ⟨ev, rfl, by simp [submitEvaluation, h]⟩

lemma approveCommit_state (org : String) (cid : DocId) (role : String)
    (s : WFState) :
    (approveCommit org cid role s).2 = s ∨
    ∃ c, findCommit org cid s = some c ∧
      (approveCommit org cid role s).2 = (approveApply org cid role c s).2 := by
  cases h : findCommit org cid s with
  | none => left; simp [approveCommit, h]
  | some c => right; exact ⟨c, rfl, by simp [approveCommit, h]⟩

lemma createContract_state (org : String) (cid : DocId) (s : WFState) :
    (createContract org cid s).2 = s ∨
    ∃ c, findCommit org cid s = some c ∧ c.status = "approved" ∧
      c.contract_id = none ∧
      (createContract org cid s).2 = (contractApply org cid s).2 := by
  cases h : findCommit org cid s with
  | none => left; simp [createContract, h]
  | some c =>
    by_cases hs : c.status = "approved"
    · cases hct : c.contract_id with
      | some ct => left; simp [createContract, h, hs, hct]
      | none =>
        right
        exact ⟨c, rfl, hs, hct, by simp [createContract, h, hs, hct]⟩
    · left; simp [createContract, h, hs]

lemma signContract_state (org : String) (ctid : DocId) (s : WFState) :
    (signContract org ctid s).2 = s ∨
    (signContract org ctid s).2 = signApply org ctid s := by
  cases h : findContract org ctid s with
  | none => left; simp [signContract, h]
  | some c => right; simp [signContract, h]

lemma handoffContract_state (org : String) (ctid : DocId) (s : WFState) :
    (handoffContract org ctid s).2 = s ∨
    ∃ c, findContract org ctid s = some c ∧ c.status = "signed" ∧
      (handoffContract org ctid s).2 = (handoffApply org ctid s).2 := by
  cases h : findContract org ctid s with
  | none => left; simp [handoffContract, h]
  | some c =>
    by_cases hs : c.status = "signed"
    · right; exact ⟨c, rfl, hs, by simp [handoffContract, h, hs]⟩
    · left; simp [handoffContract, h, hs]

/-! Facts about the Party Resolver. -/

lemma resolveOrCreateParty_unchanged (org : String) (l : Lead)
    (s : WFState) :
    (resolveOrCreateParty org l s).2.leads = s.leads ∧
    (resolveOrCreateParty org l s).2.commits = s.commits ∧
    s.next_id ≤ (resolveOrCreateParty org l s).2.next_id ∧
    ∀ p ∈ s.parties, p ∈ (resolveOrCreateParty org l s).2.parties := by
  unfold resolveOrCreateParty
  cases h : s.parties.find? (fun p => p.org_id == org &&
      p.name == normalizeName l.company_name && p.country == l.country) with
  | some p => exact ⟨rfl, rfl, le_refl _, fun q hq => hq⟩
  | none =>
    exact ⟨rfl, rfl, Nat.le_succ _, fun q hq => List.mem_cons_of_mem _ hq⟩

lemma resolveOrCreateParty_found (org : String) (l : Lead) (s : WFState) :
    ∃ p ∈ (resolveOrCreateParty org l s).2.parties, p.org_id = org ∧
      p.name = normalizeName l.company_name ∧ p.country = l.country := by
  unfold resolveOrCreateParty
  cases h : s.parties.find? (fun p => p.org_id == org &&
      p.name == normalizeName l.company_name && p.country == l.country) with
  | some p =>
    have hm := List.mem_of_find?_eq_some h
    have hp := List.find?_some h
    simp only [Bool.and_eq_true, beq_iff_eq] at hp
    exact ⟨p, hm, hp.1.1, hp.1.2, hp.2⟩
  | none =>
    exact ⟨_, List.mem_cons_self _ _, rfl, rfl, rfl⟩

/-! Preservation of the commit-approval invariant. -/

lemma all_contains_nil (aps : List Approver) :
    (aps.all fun a => List.contains ([] : List String) a.role) =
      aps.isEmpty := by
  cases aps <;> rfl

lemma allRolesApproved_mono (c : Commit) (r : String)
    (h : allRolesApproved c = true) :
    allRolesApproved { c with approvals := r :: c.approvals } = true := by
  simp only [allRolesApproved, List.all_eq_true] at h ⊢
  intro a ha
  have h2 := h a ha
  simp only [List.contains_cons, Bool.or_eq_true, beq_iff_eq]
  exact Or.inr h2

lemma approveUpdate_status (c : Commit) (r : String) :
    (approveUpdate c r).status =
      if allRolesApproved { c with approvals := r :: c.approvals }
        then "approved" else c.status := rfl

lemma approveUpdate_allRoles (c : Commit) (r : String) :
    allRolesApproved (approveUpdate c r) =
      allRolesApproved { c with approvals := r :: c.approvals } := rfl

lemma approveUpdate_consistent (c : Commit) (r : String)
    (hold : c.status = "approved" ↔ allRolesApproved c = true) :
    ((approveUpdate c r).status = "approved" ↔
      allRolesApproved (approveUpdate c r) = true) := by
  rw [approveUpdate_status, approveUpdate_allRoles]
  cases hA : allRolesApproved { c with approvals := r :: c.approvals } with
  | true => simp
  | false =>
    simp only [Bool.false_eq_true, if_false]
    constructor
    · intro h
      exact absurd (allRolesApproved_mono c r (hold.mp h)) (by simp [hA])
    · intro h
      exact absurd h (by simp)

lemma commitInv_step {s s' : WFState} (hst : Step s s') (ih : CommitInv s) :
    CommitInv s' := by
  cases hst with
  | createLead org inp s =>
    intro c hc
    exact ih c hc
  | changeLeadStage org lid st s =>
    rcases changeLeadStage_state org lid st s with heq | ⟨l, _, _, heq⟩ <;>
      · intro c hc
        rw [heq] at hc
        exact ih c hc
  | convertToEvaluate org lid s =>
    rcases convertToEvaluate_state org lid s with heq | ⟨l, hf, hq, hcv, heq⟩
    · intro c hc
      rw [heq] at hc
      exact ih c hc
    · intro c hc
      rw [heq] at hc
      have hres := (resolveOrCreateParty_unchanged org l s).2.1
      have hcm : (convertApply org lid l s).2.commits = s.commits := hres
      rw [hcm] at hc
      exact ih c hc
  | submitEvaluation org eid s =>
    rcases submitEvaluation_state org eid s with heq | ⟨ev, hf, heq⟩
    · intro c hc
      rw [heq] at hc
      exact ih c hc
    · intro c hc
      rw [heq] at hc
      rcases List.mem_cons.mp hc with rfl | hmem
      · show (if (required_approvers ev.deal_value "revenue").isEmpty
            then "approved" else "pending_approval") = "approved" ↔ _
        rw [show allRolesApproved
            { commit_id := ⟨"REV-CMT", s.next_id⟩, org_id := org,
              evaluation_id := eid, deal_value := ev.deal_value,
              approvers := required_approvers ev.deal_value "revenue",
              approvals := [],
              status := if (required_approvers ev.deal_value "revenue").isEmpty
                then "approved" else "pending_approval",
              contract_id := none } =
            (required_approvers ev.deal_value "revenue").isEmpty
          from all_contains_nil _]
        cases h : (required_approvers ev.deal_value "revenue").isEmpty <;>
          simp
      · exact ih c hmem
  | approveCommit org cid role s =>
    rcases approveCommit_state org cid role s with heq | ⟨c0, hf, heq⟩
    · intro c hc
      rw [heq] at hc
      exact ih c hc
    · intro c hc
      rw [heq] at hc
      rcases List.mem_map.mp hc with ⟨x, hx, hfx⟩
      by_cases hkey : (x.org_id == org && x.commit_id == cid) = true
      · rw [if_pos hkey] at hfx
        subst hfx
        exact approveUpdate_consistent c0 role
          (ih c0 (List.mem_of_find?_eq_some hf))
      · rw [if_neg hkey] at hfx
        subst hfx
        exact ih x hx
  | createContract org cid s =>
    rcases createContract_state org cid s with heq | ⟨c0, hf, hs, hct, heq⟩
    · intro c hc
      rw [heq] at hc
      exact ih c hc
    · intro c hc
      rw [heq] at hc
      rcases List.mem_map.mp hc with ⟨x, hx, hfx⟩
      by_cases hkey : (x.org_id == org && x.commit_id == cid) = true
      · rw [if_pos hkey] at hfx
        subst hfx
        exact ih x hx
      · rw [if_neg hkey] at hfx
        subst hfx
        exact ih x hx
  | signContract org ctid s =>
    rcases signContract_state org ctid s with heq | heq <;>
      · intro c hc
        rw [heq] at hc
        exact ih c hc
  | handoffContract org ctid s =>
    rcases handoffContract_state org ctid s with heq | ⟨c0, hf, hs, heq⟩ <;>
      · intro c hc
        rw [heq] at hc
        exact ih c hc

lemma commitInv_reachable {s : WFState} (hr : Reachable s) : CommitInv s := by
  induction hr with
  | init =>
    intro c hc
    simp [initState] at hc
  | step _ hst ih => exact commitInv_step hst ih

/-! Preservation of the converted-lead invariant, together with the id
discipline of the lead store that it relies on. -/

lemma leadInv_step {s s' : WFState} (hst : Step s s') (ih1 : LeadIds s)
    (ih2 : LeadConv s) : LeadIds s' ∧ LeadConv s' := by
  cases hst with
  | createLead org inp s =>
    refine ⟨⟨?_, ?_⟩, ?_⟩
    · intro l hl
      rcases List.mem_cons.mp hl with rfl | hmem
      · exact Nat.lt_succ_self _
      · exact Nat.lt_succ_of_lt (ih1.1 l hmem)
    · refine List.pairwise_cons.mpr ⟨?_, ih1.2⟩
      intro b hb heq
      have hlt := ih1.1 b hb
      rw [← heq] at hlt
      exact absurd hlt (Nat.lt_irrefl _)
    · intro l hl hconv
      rcases List.mem_cons.mp hl with rfl | hmem
      · simp at hconv
      · exact ih2 l hmem hconv
  | changeLeadStage org lid st s =>
    rcases changeLeadStage_state org lid st s with heq | ⟨l0, hf, hguard, heq⟩
    · rw [heq]
      exact ⟨ih1, ih2⟩
    · rw [heq]
      have hpres : ∀ y : Lead,
          ((if y.org_id == org && y.lead_id == lid then
            { y with stage := st } else y) : Lead).lead_id = y.lead_id := by
        intro y
        split <;> rfl
      refine ⟨⟨?_, ?_⟩, ?_⟩
      · intro l hl
        rcases List.mem_map.mp hl with ⟨x, hx, hfx⟩
        rw [← hfx, hpres x]
        exact ih1.1 x hx
      · refine List.pairwise_map.mpr (ih1.2.imp ?_)
        intro a b hab
        rw [hpres a, hpres b]
        exact hab
      · intro l hl hconv
        rcases List.mem_map.mp hl with ⟨x, hx, hfx⟩
        by_cases hkey : (x.org_id == org && x.lead_id == lid) = true
        · rw [if_pos hkey] at hfx
          rw [← hfx] at hconv
          have hl0mem : l0 ∈ s.leads := List.mem_of_find?_eq_some hf
          have hl0p := List.find?_some hf
          simp only [Bool.and_eq_true, beq_iff_eq] at hl0p hkey
          have hxl0 : x = l0 :=
            pairwise_ne_unique Lead.lead_id ih1.2 hx hl0mem
              (by rw [hkey.2, hl0p.2])
          have hxs := (ih2 x hx hconv).1
          rw [hxl0] at hxs
          rcases hguard with ⟨h1, _⟩ | ⟨h1, _⟩ <;>
            · rw [h1] at hxs
              exact absurd hxs (by decide)
        · rw [if_neg hkey] at hfx
          subst hfx
          exact ih2 x hx hconv
  | convertToEvaluate org lid s =>
    rcases convertToEvaluate_state org lid s with heq | ⟨l0, hf, hq, hcv, heq⟩
    · rw [heq]
      exact ⟨ih1, ih2⟩
    · rw [heq]
      obtain ⟨hrl, hrc, hrn, hrp⟩ := resolveOrCreateParty_unchanged org l0 s
      have hpres : ∀ y : Lead,
          ((if y.org_id == org && y.lead_id == lid then
            { y with is_converted := true, stage := "converted" }
            else y) : Lead).lead_id = y.lead_id := by
        intro y
        split <;> rfl
      have hleads : (convertApply org lid l0 s).2.leads =
          s.leads.map (fun y =>
            if y.org_id == org && y.lead_id == lid then
              { y with is_converted := true, stage := "converted" }
            else y) := by
        show (resolveOrCreateParty org l0 s).2.leads.map _ = _
        rw [hrl]
      refine ⟨⟨?_, ?_⟩, ?_⟩
      · intro l hl
        rw [hleads] at hl
        rcases List.mem_map.mp hl with ⟨x, hx, hfx⟩
        rw [← hfx, hpres x]
        have hb := ih1.1 x hx
        have hn : (convertApply org lid l0 s).2.next_id =
            (resolveOrCreateParty org l0 s).2.next_id + 1 := rfl
        rw [hn]
        omega
      · show List.Pairwise _ (convertApply org lid l0 s).2.leads
        rw [hleads]
        refine List.pairwise_map.mpr (ih1.2.imp ?_)
        intro a b hab
        rw [hpres a, hpres b]
        exact hab
      · intro l hl hconv
        rw [hleads] at hl
        rcases List.mem_map.mp hl with ⟨x, hx, hfx⟩
        have hparties : (convertApply org lid l0 s).2.parties =
            (resolveOrCreateParty org l0 s).2.parties := rfl
        by_cases hkey : (x.org_id == org && x.lead_id == lid) = true
        · rw [if_pos hkey] at hfx
          have hl0mem : l0 ∈ s.leads := List.mem_of_find?_eq_some hf
          have hl0p := List.find?_some hf
          simp only [Bool.and_eq_true, beq_iff_eq] at hl0p hkey
          have hxl0 : x = l0 :=
            pairwise_ne_unique Lead.lead_id ih1.2 hx hl0mem
              (by rw [hkey.2, hl0p.2])
          obtain ⟨p, hpmem, hporg, hpname, hpcountry⟩ :=
            resolveOrCreateParty_found org l0 s
          rw [← hfx]
          refine ⟨rfl, p, ?_, ?_, ?_, ?_⟩
          · rw [hparties]
            exact hpmem
          · rw [hporg]
            show org = x.org_id
            rw [hxl0, hl0p.1]
          · rw [hpname, hxl0]
          · rw [hpcountry, hxl0]
        · rw [if_neg hkey] at hfx
          rw [← hfx]
          obtain ⟨hstage, p, hpmem, hpfields⟩ := ih2 x hx (by rw [hfx]; exact hconv)
          refine ⟨hstage, p, ?_, hpfields⟩
          rw [hparties]
          exact hrp p hpmem
  | submitEvaluation org eid s =>
    rcases submitEvaluation_state org eid s with heq | ⟨ev, hf, heq⟩ <;>
      rw [heq]
    · exact ⟨ih1, ih2⟩
    · exact ⟨⟨fun l hl => Nat.lt_succ_of_lt (ih1.1 l hl), ih1.2⟩,
        fun l hl h => ih2 l hl h⟩
  | approveCommit org cid role s =>
    rcases approveCommit_state org cid role s with heq | ⟨c0, hf, heq⟩ <;>
      rw [heq]
    · exact ⟨ih1, ih2⟩
    · exact ⟨⟨fun l hl => ih1.1 l hl, ih1.2⟩, fun l hl h => ih2 l hl h⟩
  | createContract org cid s =>
    rcases createContract_state org cid s with heq | ⟨c0, hf, hs2, hct, heq⟩ <;>
      rw [heq]
    · exact ⟨ih1, ih2⟩
    · exact ⟨⟨fun l hl => Nat.lt_succ_of_lt (ih1.1 l hl), ih1.2⟩,
        fun l hl h => ih2 l hl h⟩
  | signContract org ctid s =>
    rcases signContract_state org ctid s with heq | heq <;> rw [heq]
    · exact ⟨ih1, ih2⟩
    · exact ⟨⟨fun l hl => ih1.1 l hl, ih1.2⟩, fun l hl h => ih2 l hl h⟩
  | handoffContract org ctid s =>
    rcases handoffContract_state org ctid s with heq | ⟨c0, hf, hs2, heq⟩ <;>
      rw [heq]
    · exact ⟨ih1, ih2⟩
    · exact ⟨⟨fun l hl => Nat.lt_succ_of_lt (ih1.1 l hl), ih1.2⟩,
        fun l hl h => ih2 l hl h⟩

lemma leadInv_reachable {s : WFState} (hr : Reachable s) :
    LeadIds s ∧ LeadConv s := by
  induction hr with
  | init =>
    refine ⟨⟨?_, List.Pairwise.nil⟩, ?_⟩ <;> intro l hl <;>
      simp [initState] at hl
  | step _ hst ih => exact leadInv_step hst ih.1 ih.2

/-! Reachability of the concrete scenario states. -/

lemma reach_sA : Reachable sA :=
  Reachable.step Reachable.init (Step.createLead demoOrg acmeInput initState)

lemma reach_sB : Reachable sB :=
  Reachable.step reach_sA (Step.changeLeadStage demoOrg leadId0 "contacted" sA)

lemma reach_sC : Reachable sC :=
  Reachable.step reach_sB (Step.changeLeadStage demoOrg leadId0 "qualified" sB)

lemma reach_sD : Reachable sD :=
  Reachable.step reach_sC (Step.convertToEvaluate demoOrg leadId0 sC)

lemma reach_sE : Reachable sE :=
  Reachable.step reach_sD (Step.submitEvaluation demoOrg evalId2 sD)

lemma reach_sF : Reachable sF :=
  Reachable.step reach_sE (Step.approveCommit demoOrg cmtId3 "Finance Head" sE)

lemma reach_sG : Reachable sG :=
  Reachable.step reach_sF (Step.createContract demoOrg cmtId3 sF)

lemma reach_sH : Reachable sH :=
  Reachable.step reach_sG (Step.signContract demoOrg conId4 sG)

lemma reach_sI : Reachable sI :=
  Reachable.step reach_sH (Step.handoffContract demoOrg conId4 sH)

lemma reach_sJ : Reachable sJ :=
  Reachable.step reach_sI (Step.createLead demoOrg acmeInput2 sI)

lemma reach_sJ2 : Reachable sJ2 :=
  Reachable.step reach_sJ (Step.changeLeadStage demoOrg leadId6 "contacted" sJ)

lemma reach_sJ3 : Reachable sJ3 :=
  Reachable.step reach_sJ2 (Step.changeLeadStage demoOrg leadId6 "qualified" sJ2)

lemma reach_sK : Reachable sK :=
  Reachable.step reach_sJ3 (Step.convertToEvaluate demoOrg leadId6 sJ3)

end InnovateBooks

namespace InnovateBooks

/-- C1: for every amount and domain, the Approval Matrix returns no approver
at or below ₹50,00,000, exactly [Finance Head] strictly above ₹50,00,000 and
at or below ₹1,00,00,000, and exactly [Finance Head, CFO] in that order
strictly above ₹1,00,00,000; thresholds are inclusive on the lower tier. -/
theorem approval_matrix_tiers (amount : Nat) (domain : String) :
    (amount ≤ 5000000 → approverRoles amount domain = []) ∧
    (5000000 < amount → amount ≤ 10000000 →
      approverRoles amount domain = ["Finance Head"]) ∧
    (10000000 < amount →
      approverRoles amount domain = ["Finance Head", "CFO"]) := by
  refine ⟨fun h => ?_, fun h1 h2 => ?_, fun h => ?_⟩ <;>
    unfold approverRoles required_approvers
  · rw [if_pos h]; rfl
  · rw [if_neg (by omega), if_pos h2]; rfl
  · rw [if_neg (by omega), if_neg (by omega)]; rfl

/-- Witness for C1: concrete evaluations at the two thresholds and one unit
above each. -/
theorem approval_matrix_tiers_witness :
    approverRoles 5000000 "revenue" = [] ∧
    approverRoles 5000001 "revenue" = ["Finance Head"] ∧
    approverRoles 10000000 "revenue" = ["Finance Head"] ∧
    approverRoles 10000001 "revenue" = ["Finance Head", "CFO"] :=
  ⟨(approval_matrix_tiers 5000000 "revenue").1 (by omega),
   (approval_matrix_tiers 5000001 "revenue").2.1 (by omega) (by omega),
   (approval_matrix_tiers 10000000 "revenue").2.1 (by omega) (by omega),
   (approval_matrix_tiers 10000001 "revenue").2.2 (by omega)⟩

/-- C9: approval-matrix monotonicity — for amounts a₁ < a₂ in the same
domain, the role list at a₁ is a (non-strict) prefix of the role list at a₂:
some list extends the former into the latter. -/
theorem approval_matrix_monotone (a₁ a₂ : Nat) (domain : String)
    (h : a₁ < a₂) :
    ∃ ext, approverRoles a₂ domain = approverRoles a₁ domain ++ ext := by
  unfold approverRoles required_approvers
  split_ifs <;> first
    | exact ⟨_, rfl⟩
    | (exfalso; omega)

/-- Witness for C9: the ₹60L role list is a prefix of the ₹1.2Cr role list. -/
theorem approval_matrix_monotone_witness :
    ∃ ext, approverRoles 12000000 "revenue" =
      approverRoles 6000000 "revenue" ++ ext :=
  approval_matrix_monotone 6000000 12000000 "revenue" (by omega)

/-- C2: on every reachable store a commit's status is `approved` exactly
when every role in its `approvers` has a recorded approval entry; the
approve operation on an existing commit records the given role, flips the
status to `approved` exactly when the recorded approvals then cover all
required roles (keeping the previous status otherwise), and returns
`all_approved` accordingly. -/
theorem commit_approval_invariant :
    (∀ s, Reachable s → ∀ c ∈ s.commits,
      (c.status = "approved" ↔ allRolesApproved c = true)) ∧
    (∀ (org : String) (cid : DocId) (role : String) (s : WFState)
        (c : Commit), findCommit org cid s = some c →
      ∃ r s', approveCommit org cid role s = (Except.ok r, s') ∧
        ∃ c', findCommit org cid s' = some c' ∧
          c'.approvals = role :: c.approvals ∧
          c'.approvers = c.approvers ∧
          r.all_approved = allRolesApproved c' ∧
          c'.status = (if allRolesApproved c' then "approved" else c.status)) := by
  constructor
  · intro s hr
    exact commitInv_reachable hr
  · intro org cid role s c hf
    refine ⟨(approveApply org cid role c s).1,
      (approveApply org cid role c s).2, by simp [approveCommit, hf], ?_⟩
    refine ⟨approveUpdate c role, ?_, rfl, rfl, rfl, rfl⟩
    have hfind2 : s.commits.find?
        (fun x => x.org_id == org && x.commit_id == cid) = some c := hf
    have hd := @List.find?_some Commit
      (fun x => x.org_id == org && x.commit_id == cid) c s.commits hfind2
    exact find?_map_replace
      (fun x : Commit => x.org_id == org && x.commit_id == cid)
      (approveUpdate c role) s.commits c hfind2 hd

/-- Witness for C2: evaluated on the reachable scenario store `sE`, whose
single commit is pending with [Finance Head]; the Finance Head approval is
then recorded and flips the status. -/
theorem commit_approval_invariant_witness :
    (∀ c ∈ sE.commits, (c.status = "approved" ↔ allRolesApproved c = true)) ∧
    (∃ r s', approveCommit demoOrg cmtId3 "Finance Head" sE =
        (Except.ok r, s') ∧
      ∃ c', findCommit demoOrg cmtId3 s' = some c' ∧
        c'.approvals = "Finance Head" :: cmtE.approvals ∧
        c'.approvers = cmtE.approvers ∧
        r.all_approved = allRolesApproved c' ∧
        c'.status = (if allRolesApproved c' then "approved" else cmtE.status)) :=
  ⟨commit_approval_invariant.1 sE reach_sE,
   commit_approval_invariant.2 demoOrg cmtId3 "Finance Head" sE cmtE rfl⟩

/-- C3: `convert-to-evaluate` on an existing lead that is not in stage
`qualified`, or that is already converted, returns a 400 error and leaves
the store unchanged — no Evaluation and no Party is created and the lead is
not mutated. -/
theorem convert_guard_rejects (org : String) (lid : DocId) (s : WFState)
    (l : Lead) (hfind : findLead org lid s = some l)
    (hbad : l.stage ≠ "qualified" ∨ l.is_converted = true) :
    ∃ e : ErrResp, e.status = 400 ∧
      convertToEvaluate org lid s = (Except.error e, s) := by
  rcases hbad with h | h
  · exact ⟨⟨400, "Lead is not qualified"⟩, rfl,
      by simp [convertToEvaluate, hfind, h]⟩
  · by_cases hq : l.stage = "qualified"
    · exact ⟨⟨400, "Lead already converted"⟩, rfl,
        by simp [convertToEvaluate, hfind, hq, h]⟩
    · exact ⟨⟨400, "Lead is not qualified"⟩, rfl,
        by simp [convertToEvaluate, hfind, hq]⟩

/-- Witness for C3: converting the freshly created lead of `sA` (still in
stage "new") is rejected with a 400 and the store `sA` is returned
unchanged. -/
theorem convert_guard_rejects_witness :
    ∃ e : ErrResp, e.status = 400 ∧
      convertToEvaluate demoOrg leadId0 sA = (Except.error e, sA) :=
  convert_guard_rejects demoOrg leadId0 sA leadA rfl
    (Or.inl (by decide))

/-- C4: evaluation of the code at the failing input — the whole scenario
`sA`…`sI` runs under the single tenant `demoOrg`, yet the WorkOrder the
handoff emits carries no tenant identifier at all (`org_id = none`),
contradicting the requirement that every companion record carries the
creating tenant's `org_id`. -/
theorem work_order_missing_tenant_id :
    ∃ wo ∈ sI.work_orders, wo.source_contract_id = conId4 ∧
      wo.org_id = none ∧ wo.org_id ≠ some demoOrg := by decide

/-- C5: evaluation of the code at the failing input — after the handoff in
`sI` the emitted Signal sits in the `intelligence_signals` collection and
the WorkOrder exists, yet the Intelligence Signals API (which reads
`intel_signals`) and the tenant-scoped Operations Work Intake API both
return nothing for the emitting tenant: neither record is discoverable by
its consuming module. -/
theorem handoff_outputs_not_discoverable :
    (∃ sig ∈ sI.intelligence_signals, sig.source = "workflow_engine" ∧
      sig.org_id = demoOrg ∧ sig.entity_id = conId4) ∧
    (∃ wo ∈ sI.work_orders, wo.source_contract_id = conId4) ∧
    intelligenceSignalsApi demoOrg sI = [] ∧
    operationsWorkIntakeApi demoOrg sI = [] := by decide

/-- Counterexample to C6 as stated: in the reachable store `sK` the second
Acme lead is converted, but no Party matches its contact fields — the Party
Resolver reused the party created for the first Acme lead, whose contact
name and email differ. -/
theorem lead_party_contact_mismatch :
    ∃ l ∈ sK.leads, l.is_converted = true ∧
      ¬∃ p ∈ sK.parties, p.org_id = l.org_id ∧
        p.name = normalizeName l.company_name ∧ p.country = l.country ∧
        p.contact_name = l.contact_name ∧
        p.contact_email = l.contact_email := by decide

/-- C6 (amended): on every reachable store, a lead with
`is_converted = true` is in stage `converted` and a Party of the same
tenant whose normalized name and country match the lead exists (the
contact fields of that party may come from the earlier lead that first
created it, since the Party Resolver reuses parties by normalized
name + country). -/
theorem converted_lead_invariant (s : WFState) (hr : Reachable s) :
    ∀ l ∈ s.leads, l.is_converted = true →
      l.stage = "converted" ∧ ∃ p ∈ s.parties, p.org_id = l.org_id ∧
        p.name = normalizeName l.company_name ∧ p.country = l.country :=
  (leadInv_reachable hr).2

/-- Witness for C6 (amended): evaluated at the converted second lead in the
reachable scenario store `sK`. -/
theorem converted_lead_invariant_witness :
    lead6.stage = "converted" ∧ ∃ p ∈ sK.parties,
      p.org_id = lead6.org_id ∧ p.name = normalizeName lead6.company_name ∧
      p.country = lead6.country :=
  converted_lead_invariant sK reach_sK lead6 (by decide) rfl

/-- C7: lead creation synchronously creates exactly one WorkspaceTask for
the new lead — titled "Initial Contact: company", open, system-sourced,
with `context_id` the new lead id — and exactly one ActivityEntry with
`action = created` referencing the new lead id (given that the freshly
minted lead id is not yet referenced in the store). -/
theorem lead_creation_side_effects (org : String) (inp : LeadInput)
    (s : WFState)
    (hT : ∀ t ∈ s.tasks, t.context_id ≠ (⟨"LEAD", s.next_id⟩ : DocId))
    (hA : ∀ a ∈ s.activities, a.entity_id ≠ (⟨"LEAD", s.next_id⟩ : DocId)) :
    ((createLead org inp s).2.tasks.filter
        (fun t => t.context_id == (createLead org inp s).1)) =
      [{ task_id := ⟨"TASK", s.next_id⟩, org_id := org,
         title := "Initial Contact: " ++ inp.company_name, status := "open",
         source := "system", context_id := ⟨"LEAD", s.next_id⟩ }] ∧
    ((createLead org inp s).2.activities.filter
        (fun a => a.entity_id == (createLead org inp s).1 &&
          a.action == "created")) =
      [{ activity_id := ⟨"ACT", s.next_id⟩, org_id := org,
         action := "created", entity_type := "lead",
         entity_id := ⟨"LEAD", s.next_id⟩, module_name := "commerce" }] := by
  have hid : (createLead org inp s).1 = (⟨"LEAD", s.next_id⟩ : DocId) := rfl
  constructor
  · have hnew : (createLead org inp s).2.tasks =
        { task_id := ⟨"TASK", s.next_id⟩, org_id := org,
          title := "Initial Contact: " ++ inp.company_name,
          status := "open", source := "system",
          context_id := ⟨"LEAD", s.next_id⟩ } :: s.tasks := rfl
    rw [hid, hnew, List.filter_cons_of_pos (by simp), List.cons.injEq]
    refine ⟨rfl, ?_⟩
    rw [List.filter_eq_nil_iff]
    intro t ht
    simp only [beq_iff_eq]
    exact hT t ht
  · have hnew : (createLead org inp s).2.activities =
        { activity_id := ⟨"ACT", s.next_id⟩, org_id := org,
          action := "created", entity_type := "lead",
          entity_id := ⟨"LEAD", s.next_id⟩,
          module_name := "commerce" } :: s.activities := rfl
    rw [hid, hnew, List.filter_cons_of_pos (by simp), List.cons.injEq]
    refine ⟨rfl, ?_⟩
    rw [List.filter_eq_nil_iff]
    intro a ha
    simp only [Bool.and_eq_true, beq_iff_eq, not_and]
    intro h1 _
    exact absurd h1 (hA a ha)

/-- Witness for C7: evaluated for the demo tenant creating the Acme lead in
the empty store. -/
theorem lead_creation_side_effects_witness :
    ((createLead demoOrg acmeInput initState).2.tasks.filter
        (fun t => t.context_id == (createLead demoOrg acmeInput initState).1)) =
      [{ task_id := ⟨"TASK", 0⟩, org_id := demoOrg,
         title := "Initial Contact: " ++ acmeInput.company_name,
         status := "open", source := "system",
         context_id := ⟨"LEAD", 0⟩ }] ∧
    ((createLead demoOrg acmeInput initState).2.activities.filter
        (fun a => a.entity_id == (createLead demoOrg acmeInput initState).1 &&
          a.action == "created")) =
      [{ activity_id := ⟨"ACT", 0⟩, org_id := demoOrg,
         action := "created", entity_type := "lead",
         entity_id := ⟨"LEAD", 0⟩, module_name := "commerce" }] :=
  lead_creation_side_effects demoOrg acmeInput initState
    (by simp [initState]) (by simp [initState])

/-- C8: the handoff of a signed contract creates a Handoff record, exactly
one WorkspaceTask titled "Start Delivery: contract" whose `context_id` is
the new handoff id (given a fresh handoff id), a WorkOrder whose
`source_contract_id` equals the contract id, and an intelligence Signal
record for the revenue domain. -/
theorem handoff_side_effects (org : String) (ctid : DocId) (s : WFState)
    (c : Contract) (hfind : findContract org ctid s = some c)
    (hsigned : c.status = "signed")
    (hT : ∀ t ∈ s.tasks, t.context_id ≠ (⟨"REV-HO", s.next_id⟩ : DocId)) :
    ∃ r s', handoffContract org ctid s = (Except.ok r, s') ∧
      r.handoff_id = (⟨"REV-HO", s.next_id⟩ : DocId) ∧
      (∃ h ∈ s'.handoffs, h.handoff_id = r.handoff_id ∧ h.org_id = org ∧
        h.source_contract_id = ctid ∧ h.source_type = "revenue") ∧
      (s'.tasks.filter (fun t => t.context_id == r.handoff_id) =
        [{ task_id := ⟨"TASK", s.next_id⟩, org_id := org,
           title := "Start Delivery: " ++ ctid.render, status := "open",
           source := "system", context_id := ⟨"REV-HO", s.next_id⟩ }]) ∧
      (∃ wo ∈ s'.work_orders, wo.work_order_id = r.work_order_id ∧
        wo.source_contract_id = ctid ∧ wo.source_type = "revenue") ∧
      (∃ sig ∈ s'.intelligence_signals, sig.org_id = org ∧
        sig.source = "workflow_engine" ∧ sig.entity_id = ctid) := by
  refine ⟨(handoffApply org ctid s).1, (handoffApply org ctid s).2, ?_,
    rfl, ?_, ?_, ?_, ?_⟩
  · simp [handoffContract, hfind, hsigned]
  · exact ⟨_, List.mem_cons_self _ _, rfl, rfl, rfl, rfl⟩
  · have hnew : (handoffApply org ctid s).2.tasks =
        { task_id := ⟨"TASK", s.next_id⟩, org_id := org,
          title := "Start Delivery: " ++ ctid.render, status := "open",
          source := "system",
          context_id := ⟨"REV-HO", s.next_id⟩ } :: s.tasks := rfl
    have hhid : (handoffApply org ctid s).1.handoff_id =
        (⟨"REV-HO", s.next_id⟩ : DocId) := rfl
    rw [hhid, hnew, List.filter_cons_of_pos (by simp), List.cons.injEq]
    refine ⟨rfl, ?_⟩
    rw [List.filter_eq_nil_iff]
    intro t ht
    simp only [beq_iff_eq]
    exact hT t ht
  · exact ⟨_, List.mem_cons_self _ _, rfl, rfl, rfl⟩
  · exact ⟨_, List.mem_cons_self _ _, rfl, rfl, rfl⟩

/-- Witness for C8: evaluated at the signed contract of scenario store
`sH`. -/
theorem handoff_side_effects_witness :
    ∃ r s', handoffContract demoOrg conId4 sH = (Except.ok r, s') ∧
      r.handoff_id = (⟨"REV-HO", 5⟩ : DocId) ∧
      (∃ h ∈ s'.handoffs, h.handoff_id = r.handoff_id ∧
        h.org_id = demoOrg ∧ h.source_contract_id = conId4 ∧
        h.source_type = "revenue") ∧
      (s'.tasks.filter (fun t => t.context_id == r.handoff_id) =
        [{ task_id := ⟨"TASK", 5⟩, org_id := demoOrg,
           title := "Start Delivery: " ++ conId4.render, status := "open",
           source := "system", context_id := ⟨"REV-HO", 5⟩ }]) ∧
      (∃ wo ∈ s'.work_orders, wo.work_order_id = r.work_order_id ∧
        wo.source_contract_id = conId4 ∧ wo.source_type = "revenue") ∧
      (∃ sig ∈ s'.intelligence_signals, sig.org_id = demoOrg ∧
        sig.source = "workflow_engine" ∧ sig.entity_id = conId4) :=
  handoff_side_effects demoOrg conId4 sH contractH rfl rfl (by decide)

/-- C10: a lead created through the workflow lead-capture endpoint starts
in stage "new" with `is_converted = false`, regardless of the request body;
the only stage changes the guard grants are new → contacted and
contacted → qualified, and conversion succeeds only from stage "qualified"
— so a lead must pass through "contacted" and "qualified" via explicit
stage-change operations before it can be converted. -/
theorem lead_pipeline_from_new :
    (∀ (org : String) (inp : LeadInput) (s : WFState),
      ∃ l, (createLead org inp s).2.leads = l :: s.leads ∧
        l.lead_id = (createLead org inp s).1 ∧ l.stage = "new" ∧
        l.is_converted = false) ∧
    (∀ (org : String) (lid : DocId) (st : String) (s : WFState) r s',
      changeLeadStage org lid st s = (Except.ok r, s') →
      ∃ l, findLead org lid s = some l ∧
        ((l.stage = "new" ∧ st = "contacted") ∨
          (l.stage = "contacted" ∧ st = "qualified"))) ∧
    (∀ (org : String) (lid : DocId) (s : WFState) r s',
      convertToEvaluate org lid s = (Except.ok r, s') →
      ∃ l, findLead org lid s = some l ∧ l.stage = "qualified" ∧
        l.is_converted = false) := by
  refine ⟨fun org inp s => ⟨_, rfl, rfl, rfl, rfl⟩, ?_, ?_⟩
  · intro org lid st s r s' h
    cases hf : findLead org lid s with
    | none => simp [changeLeadStage, hf] at h
    | some l =>
      by_cases hc : (l.stage = "new" ∧ st = "contacted") ∨
          (l.stage = "contacted" ∧ st = "qualified")
      · exact ⟨l, rfl, hc⟩
      · simp [changeLeadStage, hf, hc] at h
  · intro org lid s r s' h
    cases hf : findLead org lid s with
    | none => simp [convertToEvaluate, hf] at h
    | some l =>
      by_cases hq : l.stage = "qualified"
      · cases hcv : l.is_converted with
        | true => simp [convertToEvaluate, hf, hq, hcv] at h
        | false => exact ⟨l, rfl, hq, hcv⟩
      · simp [convertToEvaluate, hf, hq] at h

/-- Witness for C10: the Acme lead is created in stage "new"; the grant of
the contacted → qualified stage change on `sB` and of the conversion on
`sC` each exhibit the guard conditions at those concrete stores. -/
theorem lead_pipeline_from_new_witness :
    (∃ l, (createLead demoOrg acmeInput initState).2.leads =
        l :: initState.leads ∧
      l.lead_id = (createLead demoOrg acmeInput initState).1 ∧
      l.stage = "new" ∧ l.is_converted = false) ∧
    (∃ l, findLead demoOrg leadId0 sB = some l ∧
      ((l.stage = "new" ∧ "qualified" = "contacted") ∨
        (l.stage = "contacted" ∧ "qualified" = "qualified"))) ∧
    (∃ l, findLead demoOrg leadId0 sC = some l ∧ l.stage = "qualified" ∧
      l.is_converted = false) :=
  ⟨lead_pipeline_from_new.1 demoOrg acmeInput initState,
   lead_pipeline_from_new.2.1 demoOrg leadId0 "qualified" sB () sC rfl,
   lead_pipeline_from_new.2.2 demoOrg leadId0 sC
     ⟨evalId2, ⟨"PARTY", 1⟩⟩ sD rfl⟩

end InnovateBooks
